import Mathlib

/-!
Shallow embedding of the leierkasten-client audio pipeline.

Source files embedded here:
- src/token.rs: layered cancellation and completion token.
- src/single_buffer_sender.rs: bounded channel sender with a single overflow slot.
- src/main.rs: shared playback state (PlayerContext, State, PlayingInfo).
- src/audio_client.rs: jitter buffer and ingest loop (AudioClient).
- src/audio_stream.rs: real-time render bridge callback.
- src/audio_socket.rs: network ingest task variant (AudioSocket).
- src/gui.rs: observer side (PlayerState with target_buffer, Player update).

Conventions: machine integers become Nat (no arithmetic here ever overflows in
the source ranges), the external Opus decoder is an opaque function reporting
the per-channel sample count of a decoded frame, PCM sample values are opaque
(List Unit, so only block lengths are observable, exactly what the decoder
contract exposes), and every Rust panic path is modeled as Option.none.
-/

namespace Leierkasten

/-! Tokens, from src/token.rs. The Rust code layers ValueToken inside
CompletableToken inside CancelableToken; each layer owns one atomic flag and
delegates the other operations inward. -/

structure ValueToken (V : Type) where
  value : V
deriving DecidableEq

structure CompletableToken (T : Type) where
  token : T
  completed : Bool
deriving DecidableEq

structure CancelableToken (T : Type) where
  token : T
  canceled : Bool
deriving DecidableEq

/-- ValueToken::reset is a no-op. -/
def ValueToken.reset {V : Type} (t : ValueToken V) : ValueToken V := t

/-- CompletableToken::reset clears the completed flag and resets the inner
token; the Rust code performs no precondition check. -/
def CompletableToken.resetWith {T : Type} (inner : T → T) (t : CompletableToken T) :
    CompletableToken T :=
  { token := inner t.token, completed := false }

/-- CancelableToken::reset clears the canceled flag and resets the inner
token; the Rust code performs no precondition check. -/
def CancelableToken.resetWith {T : Type} (inner : T → T) (t : CancelableToken T) :
    CancelableToken T :=
  { token := inner t.token, canceled := false }

def CancelableToken.cancel {T : Type} (t : CancelableToken T) : CancelableToken T :=
  { t with canceled := true }

def CancelableToken.is_canceled {T : Type} (t : CancelableToken T) : Bool :=
  t.canceled

def CompletableToken.complete {T : Type} (t : CompletableToken T) : CompletableToken T :=
  { t with completed := true }

def CompletableToken.is_completed {T : Type} (t : CompletableToken T) : Bool :=
  t.completed

/-- PlayerToken is the concrete token stack used by both run loops:
Token<CancelableToken<CompletableToken<ValueToken<()>>>>. -/
abbrev PlayerToken := CancelableToken (CompletableToken (ValueToken Unit))

def PlayerToken.fresh : PlayerToken := ⟨⟨⟨()⟩, false⟩, false⟩

def PlayerToken.cancel (t : PlayerToken) : PlayerToken := CancelableToken.cancel t

def PlayerToken.is_canceled (t : PlayerToken) : Bool := CancelableToken.is_canceled t

/-- Completion delegates through the cancelable layer to the completable one. -/
def PlayerToken.complete (t : PlayerToken) : PlayerToken :=
  { t with token := t.token.complete }

def PlayerToken.is_completed (t : PlayerToken) : Bool := t.token.is_completed

/-- Full reset of the stack: clears canceled, clears completed, no-op inside. -/
def PlayerToken.reset (t : PlayerToken) : PlayerToken :=
  CancelableToken.resetWith (CompletableToken.resetWith ValueToken.reset) t

/-! Bounded channel and SingleBufferSender, from src/single_buffer_sender.rs.
The tokio mpsc channel is modeled by its queue, capacity and closed flag. -/

structure Chan (T : Type) where
  capacity : Nat
  queue : List T
  closed : Bool
deriving DecidableEq

inductive TrySendErr (T : Type) where
  | full (v : T)
  | closed (v : T)
deriving DecidableEq

/-- Model of tokio try_send: closed channels reject with Closed, full channels
reject with Full handing the value back, otherwise the value is enqueued. -/
def Chan.try_send {T : Type} (c : Chan T) (v : T) : Except (TrySendErr T) (Chan T) :=
  if c.closed then Except.error (TrySendErr.closed v)
  else if c.queue.length < c.capacity then Except.ok { c with queue := c.queue ++ [v] }
  else Except.error (TrySendErr.full v)

structure SingleBufferSender (T : Type) where
  unsent : Option T
deriving DecidableEq

/-- SingleBufferSender::send_or_store: deliver the value, or keep it as the
single pending item when the channel is full (Ok false), or report the closed
channel as an error. -/
def SingleBufferSender.send_or_store {T : Type} (s : SingleBufferSender T) (c : Chan T)
    (v : T) : Except Unit Bool × SingleBufferSender T × Chan T :=
  match c.try_send v with
  | Except.ok c1 => (Except.ok true, s, c1)
  | Except.error (TrySendErr.full v) => (Except.ok false, { s with unsent := some v }, c)
  | Except.error (TrySendErr.closed _) => (Except.error (), s, c)

/-- SingleBufferSender::try_flush: retry the pending item if there is one,
before any new value is accepted. -/
def SingleBufferSender.try_flush {T : Type} (s : SingleBufferSender T) (c : Chan T) :
    Except Unit Bool × SingleBufferSender T × Chan T :=
  match s.unsent with
  | none => (Except.ok true, s, c)
  | some v => SingleBufferSender.send_or_store { unsent := none } c v

/-! Shared playback state, from src/main.rs. -/

structure PlayingInfo where
  name : String
  buffering : Bool
  duration : Option Nat
deriving DecidableEq

inductive State where
  | none
  | connecting
  | buffering
  | preparing
  | playing (info : PlayingInfo)
deriving DecidableEq

structure PlayerContext where
  state : State
  timestamp : Nat
  buffer : Nat
deriving DecidableEq

def PlayerContext.new : PlayerContext := ⟨State.none, 0, 0⟩

def PlayerContext.set_timestamp (c : PlayerContext) (t : Nat) : PlayerContext :=
  { c with timestamp := t }

def PlayerContext.set_buffer (c : PlayerContext) (n : Nat) : PlayerContext :=
  { c with buffer := n }

/-! Messages and the AudioClient jitter buffer, from src/audio_client.rs. -/

structure StreamStartMessage where
  timestamp : Nat
  duration : Option Nat
  name : String
deriving DecidableEq

/-- A received websocket message. The serde_json parse of a text payload is
external, so a text message carries its parse result directly; binary frames
carry the encoded bytes; other frames (ping, pong, close) fall to the
catch-all arm of handle_message. -/
inductive Message where
  | text (parsed : Option StreamStartMessage)
  | binary (data : List Nat)
  | other
deriving DecidableEq

def SAMPLES_PER_FRAME : Nat := 960

def SAMPLE_RATE : Nat := 48000

/-- PCM sample values are opaque; a block is observable only through its
length, which is what the decoder adapter reports. -/
abbrev Pcm := List Unit

/-- The external Opus decoder, abstracted to the per-channel sample count it
reports for a given encoded frame. -/
abbrev Decode := List Nat → Nat

/-- The decoded block: the Rust code doubles the reported count (stereo
interleaved) and resizes the output buffer to exactly that length. -/
def blockOf (dec : Decode) (data : List Nat) : Pcm :=
  List.replicate (2 * dec data) ()

structure AudioClient where
  sender : SingleBufferSender Pcm
  timestamp : Nat
  buffer : List Message
  buffering : Bool
  context : PlayerContext
deriving DecidableEq

/-- AudioClient::new with a freshly created shared context. -/
def AudioClient.new (context : PlayerContext) : AudioClient :=
  ⟨⟨none⟩, 0, [], true, context⟩

/-- AudioClient::update_timestamp: store the new timestamp and mirror it into
the shared context. -/
def AudioClient.update_timestamp (c : AudioClient) (t : Nat) : AudioClient :=
  { c with timestamp := t, context := c.context.set_timestamp t }

/-- AudioClient::handle_message. A parsed text message is a resource change:
only legal in the Preparing or Playing states; it replaces the current item
and re-anchors the timestamp. An unparseable text message is logged and
dropped. A binary frame first advances the timestamp by one frame, then
decodes and hands the block to the sender; a closed channel is a panic. -/
def AudioClient.handle_message (c : AudioClient) (dec : Decode) (ch : Chan Pcm)
    (m : Message) : Option (AudioClient × Chan Pcm) :=
  match m with
  | Message.text parsed =>
    match parsed with
    | some msg =>
      match c.context.state with
      | State.preparing =>
        some ((({ c with context := { c.context with
          state := State.playing ⟨msg.name, c.buffering, msg.duration⟩ } }).update_timestamp
            msg.timestamp), ch)
      | State.playing _ =>
        some ((({ c with context := { c.context with
          state := State.playing ⟨msg.name, c.buffering, msg.duration⟩ } }).update_timestamp
            msg.timestamp), ch)
      | _ => none
    | none => some (c, ch)
  | Message.binary data =>
    let c1 := c.update_timestamp (c.timestamp + SAMPLES_PER_FRAME)
    match c1.sender.send_or_store ch (blockOf dec data) with
    | (Except.ok _, s, ch1) => some ({ c1 with sender := s }, ch1)
    | (Except.error _, _, _) => none
  | Message.other => some (c, ch)

/-- Lines 59 to 79 of try_consume: re-evaluate the buffering flag and push the
resulting transition into the shared state. The threshold is the hard-coded
constant 50; the backlog-empty transition is legal only in the Playing state,
every other state hits the catch-all panic arm. -/
def AudioClient.buffering_transition (c : AudioClient) : Option AudioClient :=
  if c.buffering then
    if c.buffer.length < 50 then some c
    else
      match c.context.state with
      | State.playing info =>
        some { c with
               buffering := false,
               context := { c.context with state := State.playing { info with buffering := false } } }
      | State.buffering =>
        some { c with
               buffering := false,
               context := { c.context with state := State.preparing } }
      | _ => none
  else
    if c.buffer.isEmpty then
      match c.context.state with
      | State.playing info =>
        some { c with
               buffering := true,
               context := { c.context with state := State.playing { info with buffering := true } } }
      | _ => none
    else some c

/-- Lines 80 to 96 of try_consume: when not buffering, flush the pending
block first; if the pending block could not be delivered, return without
popping. Otherwise pop the front of the backlog, publish the new depth and
handle the popped message. The returned Option Message is the popped entry. -/
def AudioClient.try_emit (c : AudioClient) (dec : Decode) (ch : Chan Pcm) :
    Option (AudioClient × Chan Pcm × Option Message) :=
  if c.buffering then some (c, ch, none)
  else
    match c.sender.try_flush ch with
    | (Except.error _, _, _) => none
    | (Except.ok flushed, s, ch1) =>
      if flushed then
        match c.buffer with
        | [] => some ({ c with sender := s }, ch1, none)
        | m :: rest =>
          let c1 := { c with
                      sender := s, buffer := rest,
                      context := c.context.set_buffer rest.length }
          match c1.handle_message dec ch1 m with
          | none => none
          | some (c2, ch2) => some (c2, ch2, some m)
      else some ({ c with sender := s }, ch1, none)

/-- AudioClient::try_consume: the buffering re-evaluation followed by the
emit step. -/
def AudioClient.try_consume (c : AudioClient) (dec : Decode) (ch : Chan Pcm) :
    Option (AudioClient × Chan Pcm × Option Message) :=
  match c.buffering_transition with
  | none => none
  | some c1 => c1.try_emit dec ch

/-- The receive arm of the run loop: push the received message to the back of
the backlog and publish the new depth. -/
def AudioClient.push_msg (c : AudioClient) (m : Message) : AudioClient :=
  { c with buffer := c.buffer ++ [m],
           context := c.context.set_buffer (c.buffer ++ [m]).length }

/-- One iteration of the AudioClient::run loop body: either a message arrived
within the 20 ms window and is pushed, or the wait timed out; in both cases
try_consume runs once. -/
inductive Event where
  | recv (m : Message)
  | timeout
deriving DecidableEq

def stepEvent (dec : Decode) (c : AudioClient) (ch : Chan Pcm) (e : Event) :
    Option (AudioClient × Chan Pcm × Option Message) :=
  match e with
  | Event.recv m => (c.push_msg m).try_consume dec ch
  | Event.timeout => c.try_consume dec ch

/-- Run the loop body over a finite trace of poll outcomes, collecting the
popped messages in order. A none result means some iteration panicked. -/
def runEvents (dec : Decode) : List Event → AudioClient → Chan Pcm →
    Option (AudioClient × Chan Pcm × List Message)
  | [], c, ch => some (c, ch, [])
  | e :: es, c, ch =>
    match stepEvent dec c ch e with
    | none => none
    | some (c1, ch1, pop) =>
      match runEvents dec es c1 ch1 with
      | none => none
      | some (c2, ch2, pops) => some (c2, ch2, pop.toList ++ pops)

/-- The messages carried by a trace, in arrival order. -/
def receivedMsgs : List Event → List Message
  | [] => []
  | Event.recv m :: es => m :: receivedMsgs es
  | Event.timeout :: es => receivedMsgs es

/-- Number of binary (audio payload) entries in a popped-message list. -/
def countBinary (ms : List Message) : Nat :=
  ms.countP fun m => match m with | Message.binary _ => true | _ => false

/-- Effect of one popped message on the timestamp, as the code implements it:
a parsed resource change re-anchors, a binary frame advances by one frame,
everything else leaves it alone. -/
def applyPop (t : Nat) : Message → Nat
  | Message.text (some m) => m.timestamp
  | Message.binary _ => t + SAMPLES_PER_FRAME
  | _ => t

def applyPops (t : Nat) (ms : List Message) : Nat := ms.foldl applyPop t

/-- Interleaved sample count of the block a popped message produces. -/
def producedLen (dec : Decode) : Message → Nat
  | Message.binary data => (blockOf dec data).length
  | _ => 0

/-- A decoder that reports the fixed frame size of the stream. -/
def dec960 : Decode := fun _ => SAMPLES_PER_FRAME

/-! Real-time render bridge, from src/audio_stream.rs. The audio source is an
endless iterator; a tick consumes a finite script of its answers, where a
none answer (and, at the boundary of the finite script, exhaustion) means
currently no data. Sample values are Int, zero fill writes 0. The log counter
counts emissions of the single warning in the callback. -/

structure Chunk where
  data : List Int
  offset : Nat
deriving DecidableEq

def Chunk.remaining_slice (c : Chunk) : List Int := c.data.drop c.offset

structure TickOut where
  output : List Int
  chunk : Option Chunk
  keepUp : Bool
  logs : Nat
  src : List (Option (List Int))
deriving DecidableEq

/-- The pull part of the callback loop: every iteration with no stored chunk
pulls one answer from the source. A none answer zero-fills the rest of the
block, logs the warning exactly when the previous tick kept up, and ends the
tick not keeping up. A pulled block is copied; a leftover is stored with its
offset for the next tick. -/
def tickPulls : List (Option (List Int)) → Nat → Bool → TickOut
  | src, 0, _ => ⟨[], none, true, 0, src⟩
  | [], n + 1, lk => ⟨List.replicate (n + 1) 0, none, false, if lk then 1 else 0, []⟩
  | none :: rest, n + 1, lk =>
    ⟨List.replicate (n + 1) 0, none, false, if lk then 1 else 0, rest⟩
  | some d :: rest, n + 1, lk =>
    if n + 1 < d.length then
      ⟨d.take (n + 1), some ⟨d, n + 1⟩, true, 0, rest⟩
    else
      let r := tickPulls rest (n + 1 - d.length) lk
      ⟨d ++ r.output, r.chunk, r.keepUp, r.logs, r.src⟩

structure Bridge where
  chunk : Option Chunk
  lastKeepUp : Bool
deriving DecidableEq

def Bridge.new : Bridge := ⟨none, true⟩

/-- One callback invocation: first drain the stored chunk remainder, then
pull; returns the filled output block, the new bridge state, the number of
warnings logged in this tick and the unconsumed source script. -/
def tick (br : Bridge) (src : List (Option (List Int))) (n : Nat) :
    List Int × Bridge × Nat × List (Option (List Int)) :=
  match br.chunk, n with
  | _, 0 => ([], { br with lastKeepUp := true }, 0, src)
  | none, n =>
    let r := tickPulls src n br.lastKeepUp
    (r.output, ⟨r.chunk, r.keepUp⟩, r.logs, r.src)
  | some c, n =>
    let rem := c.remaining_slice
    if n < rem.length then
      (rem.take n, ⟨some { c with offset := c.offset + n }, true⟩, 0, src)
    else
      let r := tickPulls src (n - rem.length) br.lastKeepUp
      (rem ++ r.output, ⟨r.chunk, r.keepUp⟩, r.logs, r.src)

/-- A run of consecutive callback invocations with the given block sizes;
collects each invocation output together with its warning count. -/
def runTicks (br : Bridge) (src : List (Option (List Int))) :
    List Nat → List (List Int × Nat) × Bridge × List (Option (List Int))
  | [] => ([], br, src)
  | n :: ns =>
    let r := tick br src n
    let rest := runTicks r.2.1 r.2.2.2 ns
    ((r.1, r.2.2.1) :: rest.1, rest.2.1, rest.2.2)

/-! Network ingest task variant, from src/audio_socket.rs, and the observer
side from src/gui.rs. -/

inductive SocketState where
  | none
  | connecting
  | connected
  | disconnecting
deriving DecidableEq

inductive AudioMessage where
  | newResource (m : StreamStartMessage)
  | audio (data : List Nat)
deriving DecidableEq

/-- A websocket message as the socket task sees it; a text payload carries
its external parse result, and receiverAlive records whether the bounded
output channel still has its consumer when the forward is attempted. -/
inductive SockMsg where
  | text (parsed : Option StreamStartMessage)
  | binary (data : List Nat)
  | close
  | other
deriving DecidableEq

inductive HandleOutcome where
  | ok
  | exit
deriving DecidableEq

/-- AudioSocket::handle_message: forward parsed resource changes and binary
payloads to the output channel (a dead consumer forces Exit), drop malformed
text with a warning, treat a close frame as Exit, ignore the rest. -/
def AudioSocket.handle_message (m : SockMsg) (receiverAlive : Bool) :
    HandleOutcome × Option AudioMessage :=
  match m with
  | SockMsg.text none => (HandleOutcome.ok, none)
  | SockMsg.text (some msg) =>
    if receiverAlive then (HandleOutcome.ok, some (AudioMessage.newResource msg))
    else (HandleOutcome.exit, none)
  | SockMsg.binary d =>
    if receiverAlive then (HandleOutcome.ok, some (AudioMessage.audio d))
    else (HandleOutcome.exit, none)
  | SockMsg.close => (HandleOutcome.exit, none)
  | SockMsg.other => (HandleOutcome.ok, none)

/-- One poll of the 20 ms bounded wait on the stream. -/
inductive SockPoll where
  | timeout
  | msg (m : SockMsg) (receiverAlive : Bool)
  | streamErr
  | endOfStream
deriving DecidableEq

inductive ExitReason where
  | canceled
  | handlerExit
  | streamError
  | endOfStream
deriving DecidableEq

/-- The while loop of AudioSocket::run over a finite trace. Each iteration is
a pair of the shared canceled flag as observed at the loop head (set at any
time by the controller thread) and the poll outcome. Returns none when the
trace ends with the loop still running; otherwise the exit reason, the
messages forwarded in order, and the unconsumed part of the trace. -/
def socketLoop : List (Bool × SockPoll) → List AudioMessage →
    Option (ExitReason × List AudioMessage × List (Bool × SockPoll))
  | [], _ => none
  | (cflag, p) :: rest, sent =>
    if cflag then some (ExitReason.canceled, sent, (cflag, p) :: rest)
    else
      match p with
      | SockPoll.timeout => socketLoop rest sent
      | SockPoll.streamErr => some (ExitReason.streamError, sent, rest)
      | SockPoll.endOfStream => some (ExitReason.endOfStream, sent, rest)
      | SockPoll.msg m alive =>
        match AudioSocket.handle_message m alive with
        | (HandleOutcome.ok, out) => socketLoop rest (sent ++ out.toList)
        | (HandleOutcome.exit, _) => some (ExitReason.handlerExit, sent, rest)

structure SocketRunOut where
  exit : ExitReason
  sent : List AudioMessage
  writes : List SocketState
  token : PlayerToken
  completeCalls : Nat
  remaining : List (Bool × SockPoll)
deriving DecidableEq

/-- AudioSocket::run. The initial shared state s0 is overwritten by the first
write without being inspected. The write sequence is Connecting before the
connect, Connected after it, Disconnecting after the loop; the loop itself
never writes. The TokenCompleter scope guard fires complete exactly once when
the scope ends, whatever the exit reason; completeCalls counts its firings. -/
def AudioSocket.run (s0 : SocketState) (events : List (Bool × SockPoll))
    (tok : PlayerToken) : Option SocketRunOut :=
  match socketLoop events [] with
  | none => none
  | some (r, sent, rem) =>
    some { exit := r, sent := sent,
           writes := [SocketState.connecting, SocketState.connected,
                      SocketState.disconnecting],
           token := tok.complete, completeCalls := 1, remaining := rem }

/-- The entry block of AudioClient::run (lines 150 to 156): the session is
entered only from the None state; any other state hits the panic arm. -/
def AudioClient.run_entry (s : State) : Option State :=
  match s with
  | State.none => some State.connecting
  | _ => none

/-- Observer-side shared state, from src/gui.rs PlayerState: the observer may
store target_buffer at any time; nothing in the repository reads it back as a
threshold. -/
structure PlayerState where
  timestamp : Nat
  buffer : Nat
  target_buffer : Nat
deriving DecidableEq

def PlayerState.new : PlayerState := ⟨0, 0, 50⟩

def PlayerState.set_target_buffer (p : PlayerState) (v : Nat) : PlayerState :=
  { p with target_buffer := v }

/-- Controller-side player from src/gui.rs: the join handle is modeled by a
Bool, the shared connection state by its current value. -/
structure GuiPlayer where
  token : PlayerToken
  socketState : SocketState
  hasHandle : Bool
deriving DecidableEq

/-- Player::update from src/gui.rs: when a handle exists and the token is
completed, reset the token, set the shared state back to None and drop the
handle; otherwise change nothing. -/
def GuiPlayer.update (p : GuiPlayer) : GuiPlayer :=
  if p.hasHandle then
    if p.token.is_completed then
      { token := p.token.reset, socketState := SocketState.none, hasHandle := false }
    else p
  else p

/-! Frame lemmas about the jitter buffer step. -/

theorem buffering_transition_frame {c c' : AudioClient}
    (h : c.buffering_transition = some c') :
    c'.buffer = c.buffer ∧ c'.sender = c.sender ∧ c'.timestamp = c.timestamp ∧
      c'.context.timestamp = c.context.timestamp ∧ c'.context.buffer = c.context.buffer := by
  unfold AudioClient.buffering_transition at h
  split at h
  · split at h
    · simp_all
    · split at h <;> (try injection h with h) <;> (try subst h) <;> simp_all
  · split at h
    · split at h <;> (try injection h with h) <;> (try subst h) <;> simp_all
    · simp_all

theorem handle_message_frame {c c' : AudioClient} {dec : Decode} {ch ch' : Chan Pcm}
    {m : Message} (h : c.handle_message dec ch m = some (c', ch')) :
    c'.buffer = c.buffer ∧ c'.buffering = c.buffering := by
  cases m with
  | text parsed =>
    cases parsed with
    | none =>
      unfold AudioClient.handle_message at h
      simp_all
    | some s =>
      unfold AudioClient.handle_message at h
      simp only at h
      split at h <;>
          simp_all [AudioClient.update_timestamp, PlayerContext.set_timestamp] <;>
          obtain ⟨h1, h2⟩ := h <;> subst h1 <;> simp
  | binary data =>
    unfold AudioClient.handle_message at h
    simp only at h
    split at h <;>
        simp_all [AudioClient.update_timestamp, PlayerContext.set_timestamp] <;>
        obtain ⟨h1, h2⟩ := h <;> subst h1 <;> simp
  | other =>
    unfold AudioClient.handle_message at h
    simp_all

theorem handle_message_timestamp {c c' : AudioClient} {dec : Decode} {ch ch' : Chan Pcm}
    {m : Message} (h : c.handle_message dec ch m = some (c', ch')) :
    c'.timestamp = applyPop c.timestamp m ∧
      (c.context.timestamp = c.timestamp → c'.context.timestamp = c'.timestamp) := by
  cases m with
  | text parsed =>
    cases parsed with
    | none =>
      unfold AudioClient.handle_message at h
      simp_all [applyPop]
    | some s =>
      unfold AudioClient.handle_message at h
      simp only at h
      split at h <;>
          simp_all [AudioClient.update_timestamp, PlayerContext.set_timestamp, applyPop] <;>
          obtain ⟨h1, h2⟩ := h <;> subst h1 <;> simp
  | binary data =>
    unfold AudioClient.handle_message at h
    simp only at h
    split at h <;>
        simp_all [AudioClient.update_timestamp, PlayerContext.set_timestamp, applyPop] <;>
        obtain ⟨h1, h2⟩ := h <;> subst h1 <;> simp
  | other =>
    unfold AudioClient.handle_message at h
    simp_all [applyPop]

theorem try_emit_frame {c c' : AudioClient} {dec : Decode} {ch ch' : Chan Pcm}
    {pop : Option Message} (h : c.try_emit dec ch = some (c', ch', pop)) :
    pop.toList ++ c'.buffer = c.buffer ∧ c'.buffering = c.buffering ∧
      c'.timestamp = applyPops c.timestamp pop.toList ∧
      (c.context.timestamp = c.timestamp → c'.context.timestamp = c'.timestamp) := by
  unfold AudioClient.try_emit at h
  split at h
  · simp only [Option.some.injEq, Prod.mk.injEq] at h
    obtain ⟨h1, h2, h3⟩ := h
    subst h1; subst h3
    simp_all [applyPops]
  · split at h
    · exact absurd h (by simp)
    · rename_i flushed s ch1 heqflush
      split at h
      · split at h
        · simp only [Option.some.injEq, Prod.mk.injEq] at h
          obtain ⟨h1, h2, h3⟩ := h
          subst h1; subst h3
          simp_all [applyPops]
        · rename_i m rest heqbuf
          dsimp only at h
          split at h
          · exact absurd h (by simp)
          · rename_i c2 ch2 heqhm
            simp only [Option.some.injEq, Prod.mk.injEq] at h
            obtain ⟨h1, h2, h3⟩ := h
            subst h1; subst h2; subst h3
            have hf := handle_message_frame heqhm
            have ht := handle_message_timestamp heqhm
            simp only [PlayerContext.set_buffer] at hf ht
            simp_all [applyPops]
      · simp only [Option.some.injEq, Prod.mk.injEq] at h
        obtain ⟨h1, h2, h3⟩ := h
        subst h1; subst h3
        simp_all [applyPops]

theorem try_consume_frame {c c' : AudioClient} {dec : Decode} {ch ch' : Chan Pcm}
    {pop : Option Message} (h : c.try_consume dec ch = some (c', ch', pop)) :
    pop.toList ++ c'.buffer = c.buffer ∧
      c'.timestamp = applyPops c.timestamp pop.toList ∧
      (c.context.timestamp = c.timestamp → c'.context.timestamp = c'.timestamp) := by
  unfold AudioClient.try_consume at h
  split at h
  · exact absurd h (by simp)
  · rename_i c1 heqbt
    obtain ⟨hb1, _, hb3, hb4, _⟩ := buffering_transition_frame heqbt
    obtain ⟨he1, _, he3, he4⟩ := try_emit_frame h
    refine ⟨by rw [he1, hb1], by rw [he3, hb3], fun hs => he4 ?_⟩
    rw [hb4, hb3, hs]

theorem receivedMsgs_cons (e : Event) (es : List Event) :
    receivedMsgs (e :: es) = receivedMsgs [e] ++ receivedMsgs es := by
  cases e <;> simp [receivedMsgs]

theorem applyPops_append (t : Nat) (xs ys : List Message) :
    applyPops t (xs ++ ys) = applyPops (applyPops t xs) ys := by
  simp [applyPops, List.foldl_append]

theorem stepEvent_frame {dec : Decode} {c c' : AudioClient} {ch ch' : Chan Pcm}
    {pop : Option Message} {e : Event} (h : stepEvent dec c ch e = some (c', ch', pop)) :
    pop.toList ++ c'.buffer = c.buffer ++ receivedMsgs [e] ∧
      c'.timestamp = applyPops c.timestamp pop.toList ∧
      (c.context.timestamp = c.timestamp → c'.context.timestamp = c'.timestamp) := by
  cases e with
  | recv m =>
    unfold stepEvent at h
    obtain ⟨t1, t2, t3⟩ := try_consume_frame h
    simp only [AudioClient.push_msg, PlayerContext.set_buffer] at t1 t2 t3
    exact ⟨by simpa [receivedMsgs] using t1, t2, t3⟩
  | timeout =>
    unfold stepEvent at h
    obtain ⟨t1, t2, t3⟩ := try_consume_frame h
    exact ⟨by simpa [receivedMsgs] using t1, t2, t3⟩

theorem runEvents_frame {dec : Decode} : ∀ {events : List Event} {c c' : AudioClient}
    {ch ch' : Chan Pcm} {pops : List Message},
    runEvents dec events c ch = some (c', ch', pops) →
    pops ++ c'.buffer = c.buffer ++ receivedMsgs events ∧
      c'.timestamp = applyPops c.timestamp pops ∧
      (c.context.timestamp = c.timestamp → c'.context.timestamp = c'.timestamp)
  | [], c, c', ch, ch', pops, h => by
    simp only [runEvents, Option.some.injEq, Prod.mk.injEq] at h
    obtain ⟨h1, h2, h3⟩ := h
    subst h1; subst h3
    simp [receivedMsgs, applyPops]
  | e :: es, c, c', ch, ch', pops, h => by
    unfold runEvents at h
    split at h
    · exact absurd h (by simp)
    · rename_i c1 ch1 pop heqstep
      split at h
      · exact absurd h (by simp)
      · rename_i c2 ch2 pops1 heqrun
        simp only [Option.some.injEq, Prod.mk.injEq] at h
        obtain ⟨h1, h2, h3⟩ := h
        subst h1; subst h2; subst h3
        obtain ⟨s1, s2, s3⟩ := stepEvent_frame heqstep
        obtain ⟨r1, r2, r3⟩ := runEvents_frame heqrun
        refine ⟨?_, ?_, fun hs => r3 (s3 hs)⟩
        · rw [List.append_assoc, r1, ← List.append_assoc, s1, List.append_assoc,
            ← receivedMsgs_cons]
        · rw [r2, s2, ← applyPops_append]

/-! Lemmas about the buffering hysteresis. -/

theorem try_consume_below_threshold {c : AudioClient} {dec : Decode} {ch : Chan Pcm}
    (hb : c.buffering = true) (hlen : c.buffer.length < 50) :
    c.try_consume dec ch = some (c, ch, none) := by
  unfold AudioClient.try_consume AudioClient.buffering_transition AudioClient.try_emit
  simp [hb, hlen]

theorem push_msg_buffering (c : AudioClient) (m : Message) :
    (c.push_msg m).buffering = c.buffering ∧ (c.push_msg m).buffer = c.buffer ++ [m] := by
  simp [AudioClient.push_msg]

theorem foldl_push_msg (c : AudioClient) (ms : List Message) :
    (ms.foldl AudioClient.push_msg c).buffering = c.buffering ∧
      (ms.foldl AudioClient.push_msg c).buffer = c.buffer ++ ms := by
  induction ms generalizing c with
  | nil => simp
  | cons m ms ih =>
    obtain ⟨ih1, ih2⟩ := ih (c.push_msg m)
    constructor
    · rw [List.foldl_cons, ih1, (push_msg_buffering c m).1]
    · rw [List.foldl_cons, ih2, (push_msg_buffering c m).2, List.append_assoc]
      rfl

theorem runEvents_buffering_phase {dec : Decode} :
    ∀ (ms : List Message) (c : AudioClient) (ch : Chan Pcm),
    c.buffering = true → c.buffer.length + ms.length < 50 →
    runEvents dec (ms.map Event.recv) c ch = some (ms.foldl AudioClient.push_msg c, ch, [])
  | [], c, ch, _, _ => by simp [runEvents]
  | m :: ms, c, ch, hb, hlen => by
    have hpb := (push_msg_buffering c m).1
    have hpl : (c.push_msg m).buffer = c.buffer ++ [m] := (push_msg_buffering c m).2
    have hlt : (c.push_msg m).buffer.length < 50 := by
      simp only [hpl, List.length_append, List.length_singleton]
      simp only [List.length_cons] at hlen
      omega
    have hstep : stepEvent dec c ch (Event.recv m) = some (c.push_msg m, ch, none) := by
      unfold stepEvent
      exact try_consume_below_threshold (by rw [hpb, hb]) hlt
    have hrest := @runEvents_buffering_phase dec ms (c.push_msg m) ch (by rw [hpb, hb])
      (by simp only [hpl, List.length_append, List.length_singleton]
          simp only [List.length_cons] at hlen
          omega)
    simp only [List.map_cons, runEvents, hstep, hrest, List.foldl_cons, Option.toList_none,
      List.nil_append]

/-- The handle step cannot panic when the shared state is Preparing or
Playing and the channel is not closed. -/
theorem handle_message_some {c : AudioClient} {dec : Decode} {ch : Chan Pcm} {m : Message}
    (hs : c.context.state = State.preparing ∨ ∃ i, c.context.state = State.playing i)
    (hcl : ch.closed = false) :
    ∃ c2 ch2, c.handle_message dec ch m = some (c2, ch2) := by
  cases m with
  | text parsed =>
    cases parsed with
    | none => exact ⟨c, ch, rfl⟩
    | some s =>
      unfold AudioClient.handle_message
      rcases hs with hs | ⟨i, hs⟩ <;> rw [hs] <;> exact ⟨_, _, rfl⟩
  | binary data =>
    unfold AudioClient.handle_message SingleBufferSender.send_or_store Chan.try_send
    simp only [hcl, Bool.false_eq_true, if_false]
    by_cases hq : ch.queue.length < ch.capacity
    · rw [if_pos hq]
      exact ⟨_, _, rfl⟩
    · rw [if_neg hq]
      exact ⟨_, _, rfl⟩
  | other => exact ⟨c, ch, rfl⟩

/-- The emit step cannot panic when the client is not buffering, the sender
is idle, the channel is open and the shared state is Preparing or Playing. -/
theorem try_emit_progress {c : AudioClient} {dec : Decode} {ch : Chan Pcm}
    (hb : c.buffering = false) (hu : c.sender.unsent = none) (hcl : ch.closed = false)
    (hs : c.context.state = State.preparing ∨ ∃ i, c.context.state = State.playing i) :
    c.try_emit dec ch ≠ none := by
  intro hno
  unfold AudioClient.try_emit at hno
  rw [if_neg (by simp [hb])] at hno
  have hflush : c.sender.try_flush ch = (Except.ok true, c.sender, ch) := by
    unfold SingleBufferSender.try_flush
    rw [hu]
  rw [hflush] at hno
  dsimp only at hno
  rw [if_pos rfl] at hno
  cases hbuf : c.buffer with
  | nil => rw [hbuf] at hno; exact absurd hno (by simp)
  | cons m rest =>
    rw [hbuf] at hno
    dsimp only at hno
    obtain ⟨c2, ch2, hhm⟩ := @handle_message_some
      { c with
        sender := c.sender, buffer := rest,
        context := c.context.set_buffer rest.length }
      dec ch m
      (by simpa [PlayerContext.set_buffer] using hs) hcl
    rw [hhm] at hno
    exact absurd hno (by simp)

/-- The Buffering to Playing transition: with the backlog at the threshold,
the sender idle and the channel open, the pull flips buffering to false. -/
theorem try_consume_flip {c : AudioClient} {dec : Decode} {ch : Chan Pcm}
    (hb : c.buffering = true) (hlen : 50 ≤ c.buffer.length)
    (hs : c.context.state = State.buffering) (hu : c.sender.unsent = none)
    (hcl : ch.closed = false) :
    ∃ c' ch' pop, c.try_consume dec ch = some (c', ch', pop) ∧ c'.buffering = false := by
  have hnlt : ¬c.buffer.length < 50 := by omega
  have hbt : c.buffering_transition =
      some { c with
             buffering := false,
             context := { c.context with state := State.preparing } } := by
    unfold AudioClient.buffering_transition
    rw [if_pos hb, if_neg hnlt, hs]
  have hprog := @try_emit_progress
    { c with
      buffering := false,
      context := { c.context with state := State.preparing } }
    dec ch rfl hu hcl (Or.inl rfl)
  cases hemit : AudioClient.try_emit
      { c with
        buffering := false,
        context := { c.context with state := State.preparing } } dec ch with
  | none => exact absurd hemit hprog
  | some r =>
    obtain ⟨c', ch', pop⟩ := r
    refine ⟨c', ch', pop, ?_, ?_⟩
    · unfold AudioClient.try_consume
      rw [hbt]
      exact hemit
    · exact (try_emit_frame hemit).2.1

/-- The Playing phase: a binary head is popped, decoded and delivered when
the sender is idle and the channel open with room. -/
theorem try_consume_drain {c : AudioClient} {dec : Decode} {ch : Chan Pcm} {d : List Nat}
    {rest : List Message} (hb : c.buffering = false) (hu : c.sender.unsent = none)
    (hcl : ch.closed = false) (hroom : ch.queue.length < ch.capacity)
    (hbuf : c.buffer = Message.binary d :: rest) :
    ∃ c', c.try_consume dec ch =
        some (c', { ch with queue := ch.queue ++ [blockOf dec d] }, some (Message.binary d)) ∧
      c'.buffer = rest ∧ c'.buffering = false ∧
      c'.timestamp = c.timestamp + SAMPLES_PER_FRAME ∧
      c'.context.timestamp = c.timestamp + SAMPLES_PER_FRAME := by
  unfold AudioClient.try_consume AudioClient.buffering_transition AudioClient.try_emit
  simp only [hb, hbuf, Bool.false_eq_true, if_false, List.isEmpty_cons]
  unfold SingleBufferSender.try_flush
  rw [hu]
  unfold AudioClient.handle_message SingleBufferSender.send_or_store Chan.try_send
  simp [hcl, hroom, AudioClient.update_timestamp, PlayerContext.set_timestamp]

/-- The Playing to Buffering transition: an empty backlog in the Playing
state flips buffering back to true without touching the channel. -/
theorem try_consume_flip_back {c : AudioClient} {dec : Decode} {ch : Chan Pcm}
    {info : PlayingInfo} (hb : c.buffering = false) (hbuf : c.buffer = [])
    (hs : c.context.state = State.playing info) :
    c.try_consume dec ch =
      some ({ c with
              buffering := true,
              context := { c.context with state := State.playing { info with buffering := true } } },
        ch, none) := by
  unfold AudioClient.try_consume AudioClient.buffering_transition AudioClient.try_emit
  simp [hb, hbuf, hs]

/-- When the pull leaves the client buffering, nothing was popped, nothing
was decoded and the channel is untouched. -/
theorem try_consume_buffering_silent {c c' : AudioClient} {dec : Decode} {ch ch' : Chan Pcm}
    {pop : Option Message} (h : c.try_consume dec ch = some (c', ch', pop))
    (hb : c'.buffering = true) : pop = none ∧ ch' = ch ∧ c'.sender = c.sender := by
  unfold AudioClient.try_consume at h
  split at h
  · exact absurd h (by simp)
  · rename_i c1 heqbt
    have hbt := buffering_transition_frame heqbt
    by_cases hc1 : c1.buffering = true
    · have hret : c1.try_emit dec ch = some (c1, ch, none) := by
        unfold AudioClient.try_emit
        rw [if_pos hc1]
      rw [hret] at h
      simp only [Option.some.injEq, Prod.mk.injEq] at h
      obtain ⟨h1, h2, h3⟩ := h
      exact ⟨h3.symm, h2.symm, by rw [← h1, hbt.2.1]⟩
    · have he2 := (try_emit_frame h).2.1
      rw [hb] at he2
      exact absurd he2.symm hc1

/-! Lemmas about timestamp accounting and ordering. -/

theorem applyPops_no_text {pops : List Message}
    (h : ∀ m ∈ pops, ∀ s, m ≠ Message.text (some s)) (t : Nat) :
    applyPops t pops = t + SAMPLES_PER_FRAME * countBinary pops := by
  induction pops generalizing t with
  | nil => simp [applyPops, countBinary]
  | cons m ms ih =>
    have hm := h m (by simp)
    have hms : ∀ x ∈ ms, ∀ s, x ≠ Message.text (some s) := fun x hx => h x (by simp [hx])
    cases m with
    | text parsed =>
      cases parsed with
      | none =>
        have h1 : applyPops t (Message.text none :: ms) = applyPops t ms := rfl
        have h2 : countBinary (Message.text none :: ms) = countBinary ms := by
          simp [countBinary, List.countP_cons]
        rw [h1, h2, ih hms]
      | some s => exact absurd rfl (hm s)
    | binary d =>
      have h1 : applyPops t (Message.binary d :: ms) =
          applyPops (t + SAMPLES_PER_FRAME) ms := rfl
      have h2 : countBinary (Message.binary d :: ms) = countBinary ms + 1 := by
        simp [countBinary, List.countP_cons]
      rw [h1, h2, ih hms]
      ring
    | other =>
      have h1 : applyPops t (Message.other :: ms) = applyPops t ms := rfl
      have h2 : countBinary (Message.other :: ms) = countBinary ms := by
        simp [countBinary, List.countP_cons]
      rw [h1, h2, ih hms]

theorem applyPops_monotone {pops : List Message}
    (h : ∀ m ∈ pops, ∀ s, m ≠ Message.text (some s)) (t : Nat) :
    t ≤ applyPops t pops := by
  rw [applyPops_no_text h t]
  omega

theorem sum_producedLen {dec : Decode} {pops : List Message}
    (h : ∀ d, Message.binary d ∈ pops → dec d = SAMPLES_PER_FRAME) :
    (pops.map (producedLen dec)).sum = 2 * SAMPLES_PER_FRAME * countBinary pops := by
  induction pops with
  | nil => simp [countBinary]
  | cons m ms ih =>
    have hms : ∀ d, Message.binary d ∈ ms → dec d = SAMPLES_PER_FRAME :=
      fun d hd => h d (by simp [hd])
    cases m with
    | binary d =>
      have hd := h d (by simp)
      have h2 : countBinary (Message.binary d :: ms) = countBinary ms + 1 := by
        simp [countBinary, List.countP_cons]
      simp only [List.map_cons, List.sum_cons, producedLen, blockOf, List.length_replicate,
        hd, h2, ih hms]
      ring
    | text parsed =>
      have h2 : countBinary (Message.text parsed :: ms) = countBinary ms := by
        simp [countBinary, List.countP_cons]
      simp only [List.map_cons, List.sum_cons, producedLen, h2, ih hms, Nat.zero_add]
    | other =>
      have h2 : countBinary (Message.other :: ms) = countBinary ms := by
        simp [countBinary, List.countP_cons]
      simp only [List.map_cons, List.sum_cons, producedLen, h2, ih hms, Nat.zero_add]

/-- Inversion of a pull that popped a message. -/
theorem try_emit_pop_inv {c c' : AudioClient} {dec : Decode} {ch ch' : Chan Pcm}
    {m : Message} (h : c.try_emit dec ch = some (c', ch', some m)) :
    c.buffering = false ∧ ∃ s ch1 rest, c.sender.try_flush ch = (Except.ok true, s, ch1) ∧
      c.buffer = m :: rest ∧
      AudioClient.handle_message
        { c with
          sender := s, buffer := rest, context := c.context.set_buffer rest.length }
        dec ch1 m = some (c', ch') := by
  unfold AudioClient.try_emit at h
  split at h
  · exact absurd h (by simp)
  · rename_i hbuffering
    split at h
    · exact absurd h (by simp)
    · rename_i flushed s ch1 heqflush
      split at h
      · rename_i hflushed
        split at h
        · exact absurd h (by simp)
        · rename_i m2 rest heqbuf
          dsimp only at h
          split at h
          · exact absurd h (by simp)
          · rename_i c2 ch2 heqhm
            simp only [Option.some.injEq, Prod.mk.injEq] at h
            obtain ⟨h1, h2, h3⟩ := h
            subst h1; subst h2; subst h3
            subst hflushed
            exact ⟨by simpa using hbuffering, s, ch1, rest, heqflush, heqbuf, heqhm⟩
      · exact absurd h (by simp)

theorem handle_message_text_state {c c' : AudioClient} {dec : Decode} {ch ch' : Chan Pcm}
    {s : StreamStartMessage}
    (h : c.handle_message dec ch (Message.text (some s)) = some (c', ch')) :
    c'.context.state = State.playing ⟨s.name, c.buffering, s.duration⟩ ∧
      c'.context.timestamp = s.timestamp ∧ c'.timestamp = s.timestamp ∧ ch' = ch := by
  unfold AudioClient.handle_message at h
  simp only at h
  split at h <;>
      simp_all [AudioClient.update_timestamp, PlayerContext.set_timestamp] <;>
      obtain ⟨h1, h2⟩ := h <;> subst h1 <;> simp

/-- A popped resource change is applied to the shared state in the same pull:
the current item and the anchor timestamp reflect it immediately. -/
theorem try_consume_pop_text {c c' : AudioClient} {dec : Decode} {ch ch' : Chan Pcm}
    {s : StreamStartMessage}
    (h : c.try_consume dec ch = some (c', ch', some (Message.text (some s)))) :
    c'.context.state = State.playing ⟨s.name, false, s.duration⟩ ∧
      c'.context.timestamp = s.timestamp ∧ c'.timestamp = s.timestamp := by
  unfold AudioClient.try_consume at h
  split at h
  · exact absurd h (by simp)
  · rename_i c1 heqbt
    obtain ⟨hbf, s1, ch1, rest, hflush, hbuf, hhm⟩ := try_emit_pop_inv h
    have hts := handle_message_text_state hhm
    refine ⟨?_, hts.2.1, hts.2.2.1⟩
    have : ({ c1 with
              sender := s1, buffer := rest,
              context := c1.context.set_buffer rest.length } : AudioClient).buffering =
        c1.buffering := rfl
    rw [hts.1, this, hbf]

/-- With an empty backlog in the Playing state the pull never panics; in any
other state the catch-all arm of the transition match panics. -/
theorem try_consume_empty_none_iff {c : AudioClient} {dec : Decode} {ch : Chan Pcm}
    (hb : c.buffering = false) (hbuf : c.buffer = []) :
    (c.try_consume dec ch = none ↔ ∀ info, c.context.state ≠ State.playing info) := by
  cases hst : c.context.state with
  | playing info =>
    have hc := @try_consume_flip_back c dec ch info hb hbuf hst
    rw [hc]
    constructor
    · intro hno
      exact absurd hno (by simp)
    · intro hf
      exact absurd rfl (hf info)
  | none =>
    have hc : c.try_consume dec ch = none := by
      unfold AudioClient.try_consume AudioClient.buffering_transition
      rw [if_neg (by simp [hb]), hbuf, hst]
      rfl
    rw [hc]
    simp
  | connecting =>
    have hc : c.try_consume dec ch = none := by
      unfold AudioClient.try_consume AudioClient.buffering_transition
      rw [if_neg (by simp [hb]), hbuf, hst]
      rfl
    rw [hc]
    simp
  | buffering =>
    have hc : c.try_consume dec ch = none := by
      unfold AudioClient.try_consume AudioClient.buffering_transition
      rw [if_neg (by simp [hb]), hbuf, hst]
      rfl
    rw [hc]
    simp
  | preparing =>
    have hc : c.try_consume dec ch = none := by
      unfold AudioClient.try_consume AudioClient.buffering_transition
      rw [if_neg (by simp [hb]), hbuf, hst]
      rfl
    rw [hc]
    simp

/-! Lemmas about the render bridge. -/

theorem tickPulls_logs_not_keeping (src : List (Option (List Int))) :
    ∀ n, (tickPulls src n false).logs = 0 := by
  induction src with
  | nil => intro n; cases n <;> simp [tickPulls]
  | cons o rest ih =>
    intro n
    cases n with
    | zero => simp [tickPulls]
    | succ k =>
      cases o with
      | none => simp [tickPulls]
      | some d =>
        simp only [tickPulls]
        split
        · simp
        · simp [ih]

theorem tick_logs_not_keeping {br : Bridge} {src : List (Option (List Int))} {n : Nat}
    (h : br.lastKeepUp = false) : (tick br src n).2.2.1 = 0 := by
  unfold tick
  split
  · rfl
  · simp only [h]
    exact tickPulls_logs_not_keeping _ _
  · dsimp only
    split
    · rfl
    · simp only [h]
      exact tickPulls_logs_not_keeping _ _

theorem tick_underrun (lk : Bool) (rest : List (Option (List Int))) {n : Nat}
    (hn : 0 < n) :
    tick ⟨none, lk⟩ (none :: rest) n =
      (List.replicate n 0, ⟨none, false⟩, (if lk then 1 else 0), rest) := by
  cases n with
  | zero => omega
  | succ k => rfl

theorem tick_exhausted (lk : Bool) {n : Nat} (hn : 0 < n) :
    tick ⟨none, lk⟩ [] n =
      (List.replicate n 0, ⟨none, false⟩, (if lk then 1 else 0), []) := by
  cases n with
  | zero => omega
  | succ k => rfl

theorem tick_recovery (d : List Int) (rest : List (Option (List Int))) {n : Nat}
    (hn : 0 < n) (hd : n < d.length) :
    tick ⟨none, false⟩ (some d :: rest) n = (d.take n, ⟨some ⟨d, n⟩, true⟩, 0, rest) := by
  cases n with
  | zero => omega
  | succ k =>
    have hp : tickPulls (some d :: rest) (k + 1) false =
        ⟨d.take (k + 1), some ⟨d, k + 1⟩, true, 0, rest⟩ := by
      simp only [tickPulls, if_pos hd]
    show ((tickPulls (some d :: rest) (k + 1) false).output,
        (⟨(tickPulls (some d :: rest) (k + 1) false).chunk,
          (tickPulls (some d :: rest) (k + 1) false).keepUp⟩ : Bridge),
        (tickPulls (some d :: rest) (k + 1) false).logs,
        (tickPulls (some d :: rest) (k + 1) false).src) = _
    rw [hp]

theorem runTicks_all_none_not_keeping :
    ∀ (ns : List Nat) (src : List (Option (List Int))),
    (∀ x ∈ src, x = none) → (∀ m ∈ ns, 0 < m) →
    (runTicks ⟨none, false⟩ src ns).1 = ns.map (fun m => (List.replicate m 0, 0))
  | [], src, _, _ => by simp [runTicks]
  | n :: ns, src, hsrc, hpos => by
    have hn : 0 < n := hpos n (by simp)
    cases src with
    | nil =>
      have ht := tick_exhausted false hn
      unfold runTicks
      rw [ht]
      have ih := runTicks_all_none_not_keeping ns [] (by simp)
        (fun m hm => hpos m (by simp [hm]))
      simp only [List.map_cons]
      rw [← ih]
      rfl
    | cons o rest =>
      have ho : o = none := hsrc o (by simp)
      subst ho
      have ht := tick_underrun false rest hn
      unfold runTicks
      rw [ht]
      have ih := runTicks_all_none_not_keeping ns rest
        (fun x hx => hsrc x (by simp [hx]))
        (fun m hm => hpos m (by simp [hm]))
      simp only [List.map_cons]
      rw [← ih]
      rfl

theorem runTicks_underrun_once (n : Nat) (ns : List Nat)
    (src : List (Option (List Int))) (hn : 0 < n) (hpos : ∀ m ∈ ns, 0 < m)
    (hsrc : ∀ x ∈ src, x = none) :
    (runTicks Bridge.new src (n :: ns)).1 =
      (List.replicate n 0, 1) :: ns.map (fun m => (List.replicate m 0, 0)) := by
  cases src with
  | nil =>
    have ht := tick_exhausted true hn
    unfold runTicks
    rw [show Bridge.new = (⟨none, true⟩ : Bridge) from rfl, ht]
    have ih := runTicks_all_none_not_keeping ns [] (by simp) hpos
    simp only [List.map_cons]
    rw [← ih]
    rfl
  | cons o rest =>
    have ho : o = none := hsrc o (by simp)
    subst ho
    have ht := tick_underrun true rest hn
    unfold runTicks
    rw [show Bridge.new = (⟨none, true⟩ : Bridge) from rfl, ht]
    have ih := runTicks_all_none_not_keeping ns rest
      (fun x hx => hsrc x (by simp [hx])) hpos
    simp only [List.map_cons]
    rw [← ih]
    rfl

/-! Lemmas about the socket task and tokens. -/

theorem socketLoop_none_all_flags_false :
    ∀ (events : List (Bool × SockPoll)) (sent : List AudioMessage),
    socketLoop events sent = none → ∀ p ∈ events, p.1 = false
  | [], _, _, _, hp => absurd hp (by simp)
  | (cflag, p) :: rest, sent, h, q, hq => by
    unfold socketLoop at h
    by_cases hc : cflag = true
    · rw [if_pos hc] at h
      exact absurd h (by simp)
    · rw [if_neg hc] at h
      rcases List.mem_cons.mp hq with hqe | hqr
      · subst hqe
        simpa using hc
      · cases p with
        | timeout => exact socketLoop_none_all_flags_false rest sent h q hqr
        | streamErr => exact absurd h (by simp)
        | endOfStream => exact absurd h (by simp)
        | msg m alive =>
          dsimp only at h
          cases hh : AudioSocket.handle_message m alive with
          | mk outcome out =>
            rw [hh] at h
            cases outcome with
            | ok => exact socketLoop_none_all_flags_false rest (sent ++ out.toList) h q hqr
            | exit => exact absurd h (by simp)

theorem socket_run_inv {s0 : SocketState} {events : List (Bool × SockPoll)}
    {tok : PlayerToken} {r : SocketRunOut} (h : AudioSocket.run s0 events tok = some r) :
    r.token = tok.complete ∧ r.completeCalls = 1 ∧
      r.writes = [SocketState.connecting, SocketState.connected,
        SocketState.disconnecting] := by
  unfold AudioSocket.run at h
  split at h
  · exact absurd h (by simp)
  · simp only [Option.some.injEq] at h
    subst h
    exact ⟨rfl, rfl, rfl⟩

theorem socket_run_none {s0 : SocketState} {events : List (Bool × SockPoll)}
    {tok : PlayerToken} (h : AudioSocket.run s0 events tok = none) :
    ∀ p ∈ events, p.1 = false := by
  unfold AudioSocket.run at h
  split at h
  · rename_i heq
    exact socketLoop_none_all_flags_false events [] heq
  · exact absurd h (by simp)

/-! Lemmas about the single overflow slot. -/

theorem send_or_store_delivers {T : Type} (s : SingleBufferSender T) {ch : Chan T} (v : T)
    (hcl : ch.closed = false) (hq : ch.queue.length < ch.capacity) :
    s.send_or_store ch v = (Except.ok true, s, { ch with queue := ch.queue ++ [v] }) := by
  unfold SingleBufferSender.send_or_store Chan.try_send
  rw [if_neg (by simp [hcl]), if_pos hq]

theorem send_or_store_stores {T : Type} (s : SingleBufferSender T) {ch : Chan T} (v : T)
    (hcl : ch.closed = false) (hq : ¬ch.queue.length < ch.capacity) :
    s.send_or_store ch v = (Except.ok false, { s with unsent := some v }, ch) := by
  unfold SingleBufferSender.send_or_store Chan.try_send
  rw [if_neg (by simp [hcl]), if_neg hq]

theorem send_or_store_closed {T : Type} (s : SingleBufferSender T) {ch : Chan T} (v : T)
    (hcl : ch.closed = true) :
    s.send_or_store ch v = (Except.error (), s, ch) := by
  unfold SingleBufferSender.send_or_store Chan.try_send
  rw [if_pos hcl]

theorem try_flush_pending {T : Type} {s : SingleBufferSender T} (ch : Chan T) {v : T}
    (h : s.unsent = some v) :
    s.try_flush ch = SingleBufferSender.send_or_store ⟨none⟩ ch v := by
  unfold SingleBufferSender.try_flush
  rw [h]

theorem try_flush_idle {T : Type} {s : SingleBufferSender T} (ch : Chan T)
    (h : s.unsent = none) : s.try_flush ch = (Except.ok true, s, ch) := by
  unfold SingleBufferSender.try_flush
  rw [h]

/-- When the pending block cannot be delivered, the pull stores it back and
pops nothing: no new value is accepted before the pending one is flushed. -/
theorem try_consume_flush_blocked {c : AudioClient} {dec : Decode} {ch : Chan Pcm} {v : Pcm}
    (hb : c.buffering = false) (hne : c.buffer ≠ []) (hu : c.sender.unsent = some v)
    (hcl : ch.closed = false) (hfull : ¬ch.queue.length < ch.capacity) :
    c.try_consume dec ch = some ({ c with sender := ⟨some v⟩ }, ch, none) := by
  have hbt : c.buffering_transition = some c := by
    unfold AudioClient.buffering_transition
    rw [if_neg (by simp [hb]), if_neg (by simpa [List.isEmpty_iff] using hne)]
  unfold AudioClient.try_consume
  rw [hbt]
  show c.try_emit dec ch = _
  unfold AudioClient.try_emit
  rw [if_neg (by simp [hb]), try_flush_pending ch hu,
    send_or_store_stores ⟨none⟩ v hcl hfull]
  rfl

/-! Concrete scenario instances used by the witnesses. -/

def ch64 : Chan Pcm := ⟨64, [], false⟩

def ch5 : Chan Pcm := ⟨5, [], false⟩

/-- The client right after AudioClient::run connected: shared state Buffering,
internal buffering flag true, empty backlog. -/
def clientStart : AudioClient := AudioClient.new ⟨State.buffering, 0, 0⟩

/-- A session that receives only binary payloads: 50 arrivals, then enough
timeouts to drain the backlog and hit the empty transition. -/
def evsAllBinary : List Event :=
  List.replicate 50 (Event.recv (Message.binary [0])) ++ List.replicate 50 Event.timeout

def msgA : StreamStartMessage := ⟨1000, none, "A"⟩

/-- A client playing track A with an empty backlog. -/
def cPlayEmpty : AudioClient :=
  ⟨⟨none⟩, 0, [], false, ⟨State.playing ⟨"A", false, none⟩, 0, 0⟩⟩

/-- A non-buffering client about to pop a resource change while Preparing. -/
def cPrepare : AudioClient :=
  ⟨⟨none⟩, 0, [Message.text (some msgA)], false, ⟨State.preparing, 0, 1⟩⟩

def cAfterText : AudioClient :=
  ⟨⟨none⟩, 1000, [], false, ⟨State.playing ⟨"A", false, none⟩, 1000, 0⟩⟩

def cAfterBin : AudioClient :=
  ⟨⟨none⟩, 960, [], false, ⟨State.playing ⟨"A", false, none⟩, 960, 0⟩⟩

def chAfterBin : Chan Pcm := ⟨5, [List.replicate 1920 ()], false⟩

/-- A non-buffering client that drained its backlog while still Preparing. -/
def cPreparingEmpty : AudioClient := ⟨⟨none⟩, 0, [], false, ⟨State.preparing, 0, 0⟩⟩

/-- A buffering client whose backlog reached 10 entries. -/
def c10buf : AudioClient :=
  ⟨⟨none⟩, 0, List.replicate 10 (Message.binary [0]), true, ⟨State.buffering, 0, 10⟩⟩

/-! Claim theorems. -/

/-- C1. Buffering hysteresis of try_consume with the implemented threshold 50
(the default target depth): while buffering, every pull below 50 backlog
entries is a no-op that emits nothing; the pull once the backlog reaches 50
flips buffering to false (shared Buffering state becomes Preparing first);
while playing, each pull pops the binary head, decodes it and delivers one
block; the pull that finds the backlog empty flips buffering back to true;
and a pull that ends buffering popped nothing and left the channel untouched,
so no decode ever happens while buffering. -/
theorem c1_buffering_hysteresis (dec : Decode) :
    (∀ (ms : List Message) (c : AudioClient) (ch : Chan Pcm),
      c.buffering = true → c.buffer.length + ms.length < 50 →
      runEvents dec (ms.map Event.recv) c ch =
        some (ms.foldl AudioClient.push_msg c, ch, []) ∧
        (ms.foldl AudioClient.push_msg c).buffering = true) ∧
    (∀ (c : AudioClient) (ch : Chan Pcm),
      c.buffering = true → 50 ≤ c.buffer.length → c.context.state = State.buffering →
      c.sender.unsent = none → ch.closed = false →
      ∃ c' ch' pop, c.try_consume dec ch = some (c', ch', pop) ∧ c'.buffering = false) ∧
    (∀ (c : AudioClient) (ch : Chan Pcm) (d : List Nat) (rest : List Message),
      c.buffering = false → c.sender.unsent = none → ch.closed = false →
      ch.queue.length < ch.capacity → c.buffer = Message.binary d :: rest →
      ∃ c', c.try_consume dec ch =
          some (c', { ch with queue := ch.queue ++ [blockOf dec d] },
            some (Message.binary d)) ∧
        c'.buffer = rest ∧ c'.buffering = false) ∧
    (∀ (c : AudioClient) (ch : Chan Pcm) (info : PlayingInfo),
      c.buffering = false → c.buffer = [] → c.context.state = State.playing info →
      c.try_consume dec ch =
        some ({ c with
                buffering := true,
                context := { c.context with
                             state := State.playing { info with buffering := true } } },
          ch, none)) ∧
    (∀ (c c' : AudioClient) (ch ch' : Chan Pcm) (pop : Option Message),
      c.try_consume dec ch = some (c', ch', pop) → c'.buffering = true →
      pop = none ∧ ch' = ch) := by
  refine ⟨?_, ?_, ?_, ?_, ?_⟩
  · intro ms c ch hb hlen
    exact ⟨runEvents_buffering_phase ms c ch hb hlen,
      by rw [(foldl_push_msg c ms).1, hb]⟩
  · intro c ch hb hlen hs hu hcl
    exact try_consume_flip hb hlen hs hu hcl
  · intro c ch d rest hb hu hcl hroom hbuf
    obtain ⟨c', h1, h2, h3, _, _⟩ := try_consume_drain hb hu hcl hroom hbuf
    exact ⟨c', h1, h2, h3⟩
  · intro c ch info hb hbuf hs
    exact try_consume_flip_back hb hbuf hs
  · intro c c' ch ch' pop h hb
    obtain ⟨h1, h2, _⟩ := try_consume_buffering_silent h hb
    exact ⟨h1, h2⟩

/-- Witness for C1: the empty-backlog pull on a playing client flips
buffering back to true and changes nothing else. -/
theorem c1_buffering_hysteresis_witness :
    AudioClient.try_consume cPlayEmpty dec960 ch64 =
      some (⟨⟨none⟩, 0, [], true, ⟨State.playing ⟨"A", true, none⟩, 0, 0⟩⟩, ch64, none) :=
  (c1_buffering_hysteresis dec960).2.2.2.1 cPlayEmpty ch64 ⟨"A", false, none⟩ rfl rfl rfl

/-- C2. Timestamp accounting: over any trace, the final timestamp is the fold
of the popped messages (binary frames advance by one frame of 960 samples,
parsed resource changes re-anchor); the shared timestamp mirrors the internal
one; between resource changes the advance is exactly 960 samples per popped
payload and the timestamp never decreases; and when the decoder reports the
fixed 960-sample frames, the produced blocks carry 2 * 960 interleaved
samples per popped payload, so total per-channel samples divided by the 48
kHz rate equal the cumulative 20 ms frame durations. -/
theorem c2_timestamp_accounting (dec : Decode) (events : List Event)
    (c c' : AudioClient) (ch ch' : Chan Pcm) (pops : List Message)
    (h : runEvents dec events c ch = some (c', ch', pops)) :
    c'.timestamp = applyPops c.timestamp pops ∧
      (c.context.timestamp = c.timestamp → c'.context.timestamp = c'.timestamp) ∧
      ((∀ m ∈ pops, ∀ s, m ≠ Message.text (some s)) →
        c'.timestamp = c.timestamp + SAMPLES_PER_FRAME * countBinary pops ∧
          c.timestamp ≤ c'.timestamp) ∧
      ((∀ d, Message.binary d ∈ pops → dec d = SAMPLES_PER_FRAME) →
        (pops.map (producedLen dec)).sum = 2 * SAMPLES_PER_FRAME * countBinary pops) := by
  obtain ⟨f1, f2, f3⟩ := runEvents_frame h
  refine ⟨f2, f3, ?_, fun hd => sum_producedLen hd⟩
  intro hnt
  exact ⟨by rw [f2, applyPops_no_text hnt], by rw [f2]; exact applyPops_monotone hnt _⟩

def cPlayForC2 : AudioClient :=
  ⟨⟨none⟩, 0, [], false, ⟨State.playing ⟨"A", false, none⟩, 0, 0⟩⟩

/-- Witness for C2 at one received binary payload. -/
theorem c2_timestamp_accounting_witness :
    cAfterBin.timestamp =
      cPlayForC2.timestamp + SAMPLES_PER_FRAME * countBinary [Message.binary [0]] ∧
      ([Message.binary [0]].map (producedLen dec960)).sum =
        2 * SAMPLES_PER_FRAME * countBinary [Message.binary [0]] := by
  have h := c2_timestamp_accounting dec960 [Event.recv (Message.binary [0])] cPlayForC2
    cAfterBin ch5 chAfterBin [Message.binary [0]] (by rfl)
  refine ⟨(h.2.2.1 ?_).1, h.2.2.2 ?_⟩
  · intro m hm s
    simp only [List.mem_singleton] at hm
    subst hm
    simp
  · intro d hd
    rfl

/-- C3. Resource-change ordering: popped messages extended with the remaining
backlog always equal the initial backlog followed by the arrivals in receive
order, so consumption is exactly FIFO; and a pull that pops a parsed resource
change updates the shared current item and its anchor timestamp in that same
pull, before any later payload can be decoded. -/
theorem c3_fifo_resource_order (dec : Decode) :
    (∀ (events : List Event) (c c' : AudioClient) (ch ch' : Chan Pcm)
      (pops : List Message),
      runEvents dec events c ch = some (c', ch', pops) →
      pops ++ c'.buffer = c.buffer ++ receivedMsgs events) ∧
    (∀ (c c' : AudioClient) (ch ch' : Chan Pcm) (s : StreamStartMessage),
      c.try_consume dec ch = some (c', ch', some (Message.text (some s))) →
      c'.context.state = State.playing ⟨s.name, false, s.duration⟩ ∧
        c'.context.timestamp = s.timestamp ∧ c'.timestamp = s.timestamp) :=
  ⟨fun _ _ _ _ _ _ h => (runEvents_frame h).1,
    fun _ _ _ _ _ h => try_consume_pop_text h⟩

/-- Witness for C3: popping a resource change for track A anchors the shared
state at its timestamp immediately. -/
theorem c3_fifo_resource_order_witness :
    cAfterText.context.state = State.playing ⟨"A", false, none⟩ ∧
      cAfterText.context.timestamp = 1000 ∧ cAfterText.timestamp = 1000 := by
  have h := (c3_fifo_resource_order dec960).2 cPrepare cAfterText ch5 ch5 msgA (by rfl)
  exact ⟨h.1, h.2.1, h.2.2⟩

/-- C10. A session of only binary payloads: after the initial buffering
completes the shared state is Preparing (never Playing, since no resource
change arrived); draining the backlog leaves it Preparing, and the pull that
finds the backlog empty hits the catch-all panic arm, aborting the run; in
general, that empty-backlog pull panics exactly when the shared state is not
Playing. -/
theorem c10_preparing_panic :
    runEvents dec960 evsAllBinary clientStart ch64 = none ∧
      ((runEvents dec960 (evsAllBinary.take 99) clientStart ch64).map
          (fun r => (r.1.context.state, r.1.buffer, r.1.buffering)) =
        some (State.preparing, [], false)) ∧
      (∀ (dec : Decode) (c : AudioClient) (ch : Chan Pcm),
        c.buffering = false → c.buffer = [] →
        (c.try_consume dec ch = none ↔ ∀ info, c.context.state ≠ State.playing info)) := by
  refine ⟨by rfl, by rfl, ?_⟩
  intro dec c ch hb hbuf
  exact try_consume_empty_none_iff hb hbuf

/-- Witness for C10: the empty-backlog pull in the Preparing state panics. -/
theorem c10_preparing_panic_witness :
    AudioClient.try_consume cPreparingEmpty dec960 ch64 = none := by
  have h := c10_preparing_panic.2.2 dec960 cPreparingEmpty ch64 rfl rfl
  exact h.mpr (by intro info hcontra; simp [cPreparingEmpty] at hcontra)

/-- C4. Cancellation and guaranteed completion: cancel is idempotent,
is_canceled is true from the first cancel onward and survives completion; on
every terminating run of the socket task (close or dead consumer, stream
error, end of stream, cancellation) the scope guard fires complete exactly
once and is_completed becomes true; a cancel observed at the loop head makes
the run exit immediately without consuming another poll; and a run can fail
to terminate only if the canceled flag was never observed set. -/
theorem c4_cancellation_completion :
    (∀ t : PlayerToken, t.cancel.cancel = t.cancel ∧ t.cancel.is_canceled = true ∧
      t.complete.is_canceled = t.is_canceled) ∧
    (∀ (s0 : SocketState) (events : List (Bool × SockPoll)) (tok : PlayerToken)
      (r : SocketRunOut), AudioSocket.run s0 events tok = some r →
      r.token.is_completed = true ∧ r.completeCalls = 1) ∧
    (∀ (s0 : SocketState) (x : SockPoll) (rest : List (Bool × SockPoll))
      (tok : PlayerToken),
      AudioSocket.run s0 ((true, x) :: rest) tok =
        some ⟨ExitReason.canceled, [], [SocketState.connecting, SocketState.connected,
          SocketState.disconnecting], tok.complete, 1, (true, x) :: rest⟩) ∧
    (∀ (s0 : SocketState) (events : List (Bool × SockPoll)) (tok : PlayerToken),
      AudioSocket.run s0 events tok = none → ∀ p ∈ events, p.1 = false) := by
  refine ⟨fun t => ⟨rfl, rfl, rfl⟩, ?_, fun s0 x rest tok => rfl, ?_⟩
  · intro s0 events tok r h
    obtain ⟨h1, h2, _⟩ := socket_run_inv h
    refine ⟨?_, h2⟩
    rw [h1]
    rfl
  · intro s0 events tok h
    exact socket_run_none h

def rEnd : SocketRunOut :=
  ⟨ExitReason.endOfStream, [], [SocketState.connecting, SocketState.connected,
    SocketState.disconnecting], PlayerToken.fresh.complete, 1, []⟩

/-- Witness for C4: a run that ends by end of stream completed its token. -/
theorem c4_cancellation_completion_witness :
    rEnd.token.is_completed = true ∧ rEnd.completeCalls = 1 :=
  c4_cancellation_completion.2.1 SocketState.none [(false, SockPoll.endOfStream)]
    PlayerToken.fresh rEnd (by rfl)

/-- Counterexample for C5: a tick that recovers from an underrun (the source
yields data again) logs nothing; the claimed complementary recovery log does
not exist in the callback, which only logs on the transition into the
underrun. The two-tick run logs once on the underrun tick and zero times on
the recovery tick, not once on each. -/
theorem c5_recovery_log_counterexample :
    runTicks Bridge.new [none, some [7, 7, 7, 7]] [4, 4] =
      ([(List.replicate 4 0, 1), ([7, 7, 7, 7], 0)], ⟨none, true⟩, []) ∧
      ((runTicks Bridge.new [none, some [7, 7, 7, 7]] [4, 4]).1.map Prod.snd) = [1, 0] :=
  ⟨by rfl, by rfl⟩

/-- C5 as amended: a no-data tick zero-fills the whole requested block and
logs the warning exactly when the previous tick kept up; any tick entered in
the not-keeping-up state logs nothing (so N consecutive no-data ticks log
exactly once, on the first); and the recovery tick silently resets the flag
without a complementary log. -/
theorem c5_underrun_edge_triggered :
    (∀ (lk : Bool) (rest : List (Option (List Int))) (n : Nat), 0 < n →
      tick ⟨none, lk⟩ (none :: rest) n =
        (List.replicate n 0, ⟨none, false⟩, (if lk then 1 else 0), rest)) ∧
    (∀ (br : Bridge) (src : List (Option (List Int))) (n : Nat),
      br.lastKeepUp = false → (tick br src n).2.2.1 = 0) ∧
    (∀ (n : Nat) (ns : List Nat) (src : List (Option (List Int))),
      0 < n → (∀ m ∈ ns, 0 < m) → (∀ x ∈ src, x = none) →
      (runTicks Bridge.new src (n :: ns)).1 =
        (List.replicate n 0, 1) :: ns.map (fun m => (List.replicate m 0, 0))) ∧
    (∀ (d : List Int) (rest : List (Option (List Int))) (n : Nat), 0 < n → n < d.length →
      tick ⟨none, false⟩ (some d :: rest) n = (d.take n, ⟨some ⟨d, n⟩, true⟩, 0, rest)) :=
  ⟨fun lk rest _ hn => tick_underrun lk rest hn,
    fun _ _ _ h => tick_logs_not_keeping h,
    fun n ns src hn hp hs => runTicks_underrun_once n ns src hn hp hs,
    fun d rest _ hn hd => tick_recovery d rest hn hd⟩

/-- Witness for C5: one no-data tick logs once; three consecutive no-data
ticks log exactly once in total. -/
theorem c5_underrun_edge_triggered_witness :
    tick ⟨none, true⟩ [none] 4 = (List.replicate 4 0, ⟨none, false⟩, 1, []) ∧
      (runTicks Bridge.new [none, none, none] [4, 4, 4]).1 =
        [(List.replicate 4 0, 1), (List.replicate 4 0, 0), (List.replicate 4 0, 0)] := by
  constructor
  · exact c5_underrun_edge_triggered.1 true [] 4 (by decide)
  · exact c5_underrun_edge_triggered.2.2.1 4 [4, 4] [none, none, none] (by decide)
      (by decide) (by decide)

/-- Counterexample for C6: resetting a canceled, not-yet-completed token is
not rejected; it silently succeeds and clears the canceled flag, returning
the token to its fresh state. -/
theorem c6_reset_counterexample :
    PlayerToken.is_completed (PlayerToken.cancel PlayerToken.fresh) = false ∧
      PlayerToken.reset (PlayerToken.cancel PlayerToken.fresh) = PlayerToken.fresh :=
  ⟨rfl, rfl⟩

/-- C6 as amended: reset performs no precondition check and unconditionally
clears both the canceled and the completed flags; the only guard is in the
caller, Player::update, which invokes reset only after observing
is_completed. -/
theorem c6_reset_unchecked :
    (∀ t : PlayerToken, (t.reset).canceled = false ∧ (t.reset).token.completed = false ∧
      (t.reset).is_completed = false) ∧
    (∀ p : GuiPlayer, p.token.is_completed = false → p.update = p) := by
  refine ⟨fun t => ⟨rfl, rfl, rfl⟩, ?_⟩
  intro p h
  unfold GuiPlayer.update
  simp [h]

/-- Witness for C6: reset clears the canceled flag of a canceled token, and
update leaves a running player untouched. -/
theorem c6_reset_unchecked_witness :
    ((PlayerToken.cancel PlayerToken.fresh).reset).canceled = false ∧
      GuiPlayer.update ⟨PlayerToken.cancel PlayerToken.fresh, SocketState.connected, true⟩ =
        ⟨PlayerToken.cancel PlayerToken.fresh, SocketState.connected, true⟩ :=
  ⟨(c6_reset_unchecked.1 (PlayerToken.cancel PlayerToken.fresh)).1,
    c6_reset_unchecked.2 ⟨PlayerToken.cancel PlayerToken.fresh, SocketState.connected, true⟩
      rfl⟩

/-- Counterexample for C7: the observer writes a target depth of 10, the
backlog holds 10 entries, yet the pull leaves buffering true and emits
nothing, because the jitter buffer compares against the hard-coded constant
50 and never reads the observer value. -/
theorem c7_target_ignored_counterexample :
    (PlayerState.new.set_target_buffer 10).target_buffer = 10 ∧
      10 ≤ c10buf.buffer.length ∧ c10buf.buffering = true ∧
      AudioClient.try_consume c10buf dec960 ch64 = some (c10buf, ch64, none) := by
  refine ⟨rfl, by decide, rfl, ?_⟩
  exact try_consume_below_threshold rfl (by decide)

/-- C7 as amended: the gui-variant PlayerState accepts target_buffer writes
at any time and reads them back, but the jitter buffer compared threshold is
the constant 50 (AudioClient and its PlayerContext carry no target field):
below 50 the pull never flips buffering, at 50 it always does. -/
theorem c7_fixed_threshold (dec : Decode) :
    (∀ (p : PlayerState) (v : Nat), (p.set_target_buffer v).target_buffer = v) ∧
    (∀ (c : AudioClient) (ch : Chan Pcm), c.buffering = true → c.buffer.length < 50 →
      c.try_consume dec ch = some (c, ch, none)) ∧
    (∀ (c : AudioClient) (ch : Chan Pcm), c.buffering = true → 50 ≤ c.buffer.length →
      c.context.state = State.buffering → c.sender.unsent = none → ch.closed = false →
      ∃ c' ch' pop, c.try_consume dec ch = some (c', ch', pop) ∧ c'.buffering = false) :=
  ⟨fun _ _ => rfl, fun _ _ hb hl => try_consume_below_threshold hb hl,
    fun _ _ hb hl hs hu hcl => try_consume_flip hb hl hs hu hcl⟩

/-- Witness for C7: a written target of 10 reads back as 10, and a pull with
a 10-entry backlog stays buffering regardless. -/
theorem c7_fixed_threshold_witness :
    (PlayerState.new.set_target_buffer 10).target_buffer = 10 ∧
      AudioClient.try_consume c10buf dec960 ch64 = some (c10buf, ch64, none) :=
  ⟨(c7_fixed_threshold dec960).1 PlayerState.new 10,
    (c7_fixed_threshold dec960).2.1 c10buf ch64 rfl (by decide)⟩

def rEndFromConnected : SocketRunOut :=
  ⟨ExitReason.endOfStream, [], [SocketState.connecting, SocketState.connected,
    SocketState.disconnecting], PlayerToken.fresh.complete, 1, []⟩

/-- Counterexample for C8: starting the socket run from the Connected state
is not rejected as a fatal contract violation; the run proceeds normally and
behaves exactly as a run started from Idle, overwriting the prior state with
Connecting. -/
theorem c8_entry_unchecked_counterexample :
    AudioSocket.run SocketState.connected [(false, SockPoll.endOfStream)]
        PlayerToken.fresh = some rEndFromConnected ∧
      AudioSocket.run SocketState.connected [(false, SockPoll.endOfStream)]
          PlayerToken.fresh =
        AudioSocket.run SocketState.none [(false, SockPoll.endOfStream)]
          PlayerToken.fresh :=
  ⟨rfl, rfl⟩

/-- C8 as amended: every terminating socket run writes exactly Connecting,
Connected, Disconnecting in that order regardless of the prior shared state
(AudioSocket::run has no entry check); the fatal only-from-Idle entry check
lives in the AudioClient variant, against its own state enum; and the shared
state is reset to Idle only by Player::update after completion is observed. -/
theorem c8_connection_monotone :
    (∀ (s0 : SocketState) (events : List (Bool × SockPoll)) (tok : PlayerToken)
      (r : SocketRunOut), AudioSocket.run s0 events tok = some r →
      r.writes = [SocketState.connecting, SocketState.connected,
        SocketState.disconnecting]) ∧
    (AudioClient.run_entry State.none = some State.connecting ∧
      ∀ s : State, s ≠ State.none → AudioClient.run_entry s = none) ∧
    (∀ p : GuiPlayer, p.token.is_completed = false → p.update = p) ∧
    (∀ p : GuiPlayer, p.hasHandle = true → p.token.is_completed = true →
      (p.update).socketState = SocketState.none ∧ (p.update).token = p.token.reset) := by
  refine ⟨?_, ⟨rfl, ?_⟩, ?_, ?_⟩
  · intro s0 events tok r h
    exact (socket_run_inv h).2.2
  · intro s hs
    cases s with
    | none => exact absurd rfl hs
    | connecting => rfl
    | buffering => rfl
    | preparing => rfl
    | playing info => rfl
  · intro p h
    unfold GuiPlayer.update
    simp [h]
  · intro p h1 h2
    unfold GuiPlayer.update
    rw [if_pos h1, if_pos h2]
    exact ⟨rfl, rfl⟩

/-- Witness for C8: the amended properties at a concrete run and player. -/
theorem c8_connection_monotone_witness :
    rEndFromConnected.writes = [SocketState.connecting, SocketState.connected,
      SocketState.disconnecting] ∧
      (GuiPlayer.update ⟨PlayerToken.fresh.complete, SocketState.disconnecting,
        true⟩).socketState = SocketState.none :=
  ⟨c8_connection_monotone.1 SocketState.connected [(false, SockPoll.endOfStream)]
      PlayerToken.fresh rEndFromConnected (by rfl),
    (c8_connection_monotone.2.2.2 ⟨PlayerToken.fresh.complete, SocketState.disconnecting,
      true⟩ rfl rfl).1⟩

/-- C9. Single-item overflow buffer: send_or_store either delivers the value
to the open channel, stores it as the single pending item when the channel is
full (returning Ok false), or returns an error when the channel is closed, so
a value is never dropped without an error; try_flush retries the pending item
before anything else and is a no-op when idle; and in the jitter buffer a
blocked flush makes the pull return without popping, so no new value is
accepted while one is pending. -/
theorem c9_single_buffer :
    (∀ (T : Type) (s : SingleBufferSender T) (ch : Chan T) (v : T),
      (ch.closed = false → ch.queue.length < ch.capacity →
        s.send_or_store ch v = (Except.ok true, s, { ch with queue := ch.queue ++ [v] })) ∧
      (ch.closed = false → ¬ch.queue.length < ch.capacity →
        s.send_or_store ch v = (Except.ok false, { s with unsent := some v }, ch)) ∧
      (ch.closed = true → s.send_or_store ch v = (Except.error (), s, ch))) ∧
    (∀ (T : Type) (s : SingleBufferSender T) (ch : Chan T) (v : T), s.unsent = some v →
      s.try_flush ch = SingleBufferSender.send_or_store ⟨none⟩ ch v) ∧
    (∀ (T : Type) (s : SingleBufferSender T) (ch : Chan T), s.unsent = none →
      s.try_flush ch = (Except.ok true, s, ch)) ∧
    (∀ (dec : Decode) (c : AudioClient) (ch : Chan Pcm) (v : Pcm),
      c.buffering = false → c.buffer ≠ [] → c.sender.unsent = some v →
      ch.closed = false → ¬ch.queue.length < ch.capacity →
      c.try_consume dec ch = some ({ c with sender := ⟨some v⟩ }, ch, none)) :=
  ⟨fun _ s ch v => ⟨fun hcl hq => send_or_store_delivers s v hcl hq,
      fun hcl hq => send_or_store_stores s v hcl hq,
      fun hcl => send_or_store_closed s v hcl⟩,
    fun _ _ ch _ h => try_flush_pending ch h,
    fun _ _ ch h => try_flush_idle ch h,
    fun _ _ _ _ hb hne hu hcl hfull => try_consume_flush_blocked hb hne hu hcl hfull⟩

def blockPend : Pcm := List.replicate 2 ()

def chFull : Chan Pcm := ⟨1, [List.replicate 4 ()], false⟩

def cBlocked : AudioClient :=
  ⟨⟨some blockPend⟩, 0, [Message.other], false, ⟨State.preparing, 0, 1⟩⟩

/-- Witness for C9: a full channel makes send_or_store store the value, and a
blocked flush makes the pull return without popping. -/
theorem c9_single_buffer_witness :
    SingleBufferSender.send_or_store (⟨none⟩ : SingleBufferSender Nat) ⟨1, [5], false⟩ 7 =
      (Except.ok false, ⟨some 7⟩, ⟨1, [5], false⟩) ∧
      AudioClient.try_consume cBlocked dec960 chFull =
        some ({ cBlocked with sender := ⟨some blockPend⟩ }, chFull, none) :=
  ⟨(c9_single_buffer.1 Nat ⟨none⟩ ⟨1, [5], false⟩ 7).2.1 rfl (by decide),
    c9_single_buffer.2.2.2 dec960 cBlocked chFull blockPend rfl (by decide) rfl rfl
      (by decide)⟩

end Leierkasten
